import Mathlib

/-!
Verification of the `mlat` multilateration tracker (`mlat/mlattrack.py`).

This file gives a shallow embedding of the tracker in Lean 4 and proves
properties of it.  Conventions used throughout:

* Machine floats (Python `float`) are modelled by exact rationals `ℚ`;
  decimal constants from the source are written as fractions
  (`2e-3 = 1/500`, `1.05 = 21/20`, `0.05 = 1/20`, `0.3 = 3/10`, `0.5 = 1/2`).
* Receivers are Python objects that are unique per station; object identity
  (`is`) is modelled as equality of their integer uid.  The per-receiver
  precomputed distance table `receiver.distance[other.uid]` is modelled by a
  function `dist : ℕ → ℕ → ℚ` indexed by the two uids.
* `constants.Cair` (speed of radio propagation in air) comes from a module
  that is not part of the sources, so it is kept as a parameter `Cair : ℚ`.
* Python `list.sort` is a stable sort; it is modelled by `List.insertionSort`
  with the non-strict key comparison.  Elements with equal keys may come out
  in a different relative order than Python's stable sort; none of the
  properties proved here depend on the order of key ties.
-/

namespace Mlat

/-- A receiver observation, one element of the flattened component built at
the start of `_cluster_timestamps`: `(receiver, timestamp, variance, utc)`. -/
structure Obs where
  rcv : ℕ
  ts : ℚ
  vr : ℚ
  utc : ℚ
  deriving DecidableEq

/-- One member of a cluster under construction: `(receiver, timestamp, variance)`. -/
structure CMember where
  rcv : ℕ
  ts : ℚ
  vr : ℚ
  deriving DecidableEq

/-- Dropping the utc field, as in `cluster.append((receiver, timestamp, variance))`. -/
def Obs.toMember (o : Obs) : CMember := ⟨o.rcv, o.ts, o.vr⟩

/-- The input of `_cluster_timestamps`: a mapping
`receiver -> (variance, [(timestamp, utc), ...])`.  A Python dict iterates in
insertion order, so it is modelled as an association list. -/
abbrev Component := List (ℕ × ℚ × List (ℚ × ℚ))

/-- A produced cluster `(distinct, first_seen, [(receiver, timestamp, variance), ...])`. -/
abbrev ClusterT := ℕ × ℚ × List CMember

/-- Flattening of the component into `(receiver, timestamp, variance, utc)`
tuples (`_cluster_timestamps`, first loop). -/
def flattenComponent (component : Component) : List Obs :=
  component.flatMap fun rvt => rvt.2.2.map fun tu => ⟨rvt.1, tu.1, rvt.2.1, tu.2⟩

/-- Ordering of observations by (normalized) timestamp, the sort key
`operator.itemgetter(1)` of `flat_component.sort`. -/
def tsLe (a b : Obs) : Prop := a.ts ≤ b.ts

instance : DecidableRel tsLe := fun a b => inferInstanceAs (Decidable (a.ts ≤ b.ts))

instance : IsTotal Obs tsLe := ⟨fun a b => le_total a.ts b.ts⟩

instance : IsTrans Obs tsLe := ⟨fun _ _ _ h1 h2 => le_trans h1 h2⟩

/-- Rough grouping: walking the sorted flattened component, a new group is
started whenever the gap to the previous element exceeds 2 ms (`2e-3`).
`cur ++ [last]` is the group currently being grown, with `last` its final
element (`group[-1]`). -/
def roughAux (cur : List Obs) (last : Obs) : List Obs → List (List Obs)
  | [] => [cur ++ [last]]
  | t :: rest =>
    if t.ts - last.ts > 1/500 then (cur ++ [last]) :: roughAux [] t rest
    else roughAux (cur ++ [last]) t rest

/-- The rough 2 ms grouping of `_cluster_timestamps`.  On an empty flattened
component the Python code would fail at `flat_component[0]`; the model returns
no groups (the callers only pass components with at least
`min_component_size ≥ 3` receivers). -/
def roughGroups : List Obs → List (List Obs)
  | [] => []
  | x :: rest => roughAux [] x rest

/-- The pairwise candidate test of the inner `for other_receiver, ... in cluster`
loop: walks the current cluster and returns `(can_cluster, is_distinct)`.
A duplicate receiver or an over-range time difference rejects the candidate;
a distance below 1 km clears `is_distinct`.  (`min_d` in the source is dead:
it is computed but never used.) -/
def pairCheck (dist : ℕ → ℕ → ℚ) (Cair : ℚ) (o : Obs) : List CMember → Bool → Bool × Bool
  | [], isd => (true, isd)
  | m :: ms, isd =>
    if m.rcv = o.rcv then (false, isd)
    else if |m.ts - o.ts| > (dist o.rcv m.rcv * (21/20) + 1000) / Cair then (false, isd)
    else pairCheck dist Cair o ms (if dist o.rcv m.rcv < 1000 then false else isd)

/-- Result of one pass of the `for i in range(len(group) - 1, -1, -1)` loop:
the grown cluster, its distinct count, the earliest wall-clock time seen, and
the elements left in the group (still ordered latest-first, as walked). -/
structure ExtractRes where
  cluster : List CMember
  distinct : ℕ
  firstSeen : ℚ
  rem : List Obs
  deriving DecidableEq

/-- A rejected (but in-range) candidate stays in the group. -/
def ExtractRes.keep (o : Obs) (r : ExtractRes) : ExtractRes :=
  ⟨r.cluster, r.distinct, r.firstSeen, o :: r.rem⟩

/-- The candidate walk of `_cluster_timestamps`: the group is processed from
its latest element downwards (here: the reversed remainder of the group), the
seed already being in `cluster`.  The walk stops (`break`) as soon as the seed
timestamp minus the candidate timestamp exceeds 2 ms; an accepted candidate
moves from the group into the cluster (`del group[i]`), updating
`first_seen = min(first_seen, utc)` and bumping `distinct` when the candidate
is distinct. -/
def extractLoop (dist : ℕ → ℕ → ℚ) (Cair : ℚ) (seedTs : ℚ) :
    List Obs → List CMember → ℕ → ℚ → ExtractRes
  | [], cluster, distinct, firstSeen => ⟨cluster, distinct, firstSeen, []⟩
  | o :: rest, cluster, distinct, firstSeen =>
    if seedTs - o.ts > 1/500 then ⟨cluster, distinct, firstSeen, o :: rest⟩
    else if (pairCheck dist Cair o cluster true).1 then
      extractLoop dist Cair seedTs rest (cluster ++ [o.toMember])
        (if (pairCheck dist Cair o cluster true).2 then distinct + 1 else distinct)
        (min firstSeen o.utc)
    else
      ExtractRes.keep o (extractLoop dist Cair seedTs rest cluster distinct firstSeen)

/-- The `while len(group) >= min_receivers` loop of `_cluster_timestamps`.
Each iteration pops the last element of the (timestamp-sorted) group as a
seed, extracts a cluster around it, and emits the cluster when it has at
least `minR` distinct receivers.  Every iteration removes at least the seed
from the group, so `fuel := group.length` iterations always suffice; the fuel
argument only makes the recursion structural.  (For `minR = 0` and an empty
group the Python `group.pop()` would raise; the model stops instead, which
callers never hit because `min_receivers ≥ 3`.) -/
def clusterWhile (dist : ℕ → ℕ → ℚ) (Cair : ℚ) (minR : ℕ) : ℕ → List Obs → List ClusterT
  | 0, _ => []
  | fuel + 1, grp =>
    if minR ≤ grp.length then
      match grp.reverse with
      | [] => []
      | seed :: restRev =>
        let res := extractLoop dist Cair seed.ts restRev [seed.toMember] 1 seed.utc
        let rest := clusterWhile dist Cair minR fuel res.rem.reverse
        if minR ≤ res.distinct then (res.distinct, res.firstSeen, res.cluster.reverse) :: rest
        else rest
    else []

/-- `_cluster_timestamps(component, min_receivers)`: flatten, sort by
timestamp, split into rough 2 ms groups, extract clusters from each group. -/
def cluster_timestamps (dist : ℕ → ℕ → ℚ) (Cair : ℚ)
    (component : Component) (min_receivers : ℕ) : List ClusterT :=
  (roughGroups (List.insertionSort tsLe (flattenComponent component))).flatMap
    fun grp => clusterWhile dist Cair min_receivers grp.length grp

/-! ## The cluster selection loop of `MlatTracker._resolve` -/

/-- ECEF position, metres. -/
abbrev Ecef := ℚ × ℚ × ℚ

/-- A 3×3 covariance matrix (only its entries are ever read; the resolve path
uses only the trace). -/
structure Cov where
  c00 : ℚ
  c01 : ℚ
  c02 : ℚ
  c10 : ℚ
  c11 : ℚ
  c12 : ℚ
  c20 : ℚ
  c21 : ℚ
  c22 : ℚ
  deriving DecidableEq

/-- `numpy.trace(ecef_cov)`. -/
def covTrace (c : Cov) : ℚ := c.c00 + c.c11 + c.c22

/-- Python `int(...)`: truncation towards zero. -/
def pyInt (q : ℚ) : ℤ := if 0 ≤ q then ⌊q⌋ else ⌈q⌉

/-- Python `int(math.sqrt(q))` for `q ≥ 0`: the integer part of the square
root.  For `0 ≤ q`, `⌊√q⌋ = ⌊√⌊q⌋⌋` (an integer `n` satisfies `n ≤ √q` iff
`n² ≤ q` iff `n² ≤ ⌊q⌋`), so this is `Nat.sqrt ⌊q⌋`. -/
def pyIntSqrt (q : ℚ) : ℕ := Nat.sqrt (⌊q⌋.toNat)

/-- The arguments of one `solver.solve(cluster, altitude, altitude_error,
initial_guess)` invocation. -/
abbrev SolveCall := List CMember × Option ℚ × Option ℚ × Option Ecef

/-- The local context of `_resolve`'s `while clusters and not result` loop:
the solver callback, receiver positions, and the local variables fixed before
the loop (`decoded.altitude`, `altitude`, `altitude_dof`,
`ac.last_altitude_time` and the `last_result_*` snapshot). -/
structure LoopCtx where
  solve : List CMember → Option ℚ → Option ℚ → Option Ecef → Option (Ecef × Option Cov)
  position : ℕ → Ecef
  FTOM : ℚ
  decodedAlt : Option ℤ
  altitude : Option ℚ
  altitude_dof : ℕ
  last_altitude_time : ℚ
  last_result_position : Option Ecef
  last_result_dof : ℤ
  last_result_time : ℚ

/-- The loop variables at the moment a result is accepted (`result = r`):
everything the code after the loop reads. -/
structure Accepted where
  ecef : Ecef
  cov : Cov
  varEst : ℚ
  err : ℕ
  altErr : Option ℚ
  distinct : ℕ
  clusterUtc : ℚ
  cluster : List CMember
  dof : ℤ
  deriving DecidableEq

/-- How the cluster loop ended: `abortAll` is the `return` inside the loop
(the whole resolution stops), `noResult` means the clusters ran out. -/
inductive LoopRes where
  | abortAll : LoopRes
  | noResult : LoopRes
  | accepted : Accepted → LoopRes
  deriving DecidableEq

/-- The loop outcome together with the solver invocations it made and the
number of `stats_solve_success` bumps. -/
structure LoopOut where
  calls : List SolveCall
  succ : ℕ
  res : LoopRes

/-- Sort key `operator.itemgetter(1)` of `cluster.sort` inside the loop. -/
def cmLe (a b : CMember) : Prop := a.ts ≤ b.ts

instance : DecidableRel cmLe := fun a b => inferInstanceAs (Decidable (a.ts ≤ b.ts))

instance : IsTotal CMember cmLe := ⟨fun a b => le_total a.ts b.ts⟩

instance : IsTrans CMember cmLe := ⟨fun _ _ _ h1 h2 => le_trans h1 h2⟩

/-- The `while clusters and not result` loop of `_resolve` (lines 274-348).
The Python loop pops from the back of the `(distinct, first_seen)`-sorted
cluster list; here the list is passed already reversed (best cluster first).
`max_error = 10e3`.  A solver result without covariance sets
`var_est = max_error²` and is skipped.  (The dead `if False and ...` logging
branch is omitted.) -/
def clusterLoop (ctx : LoopCtx) : List ClusterT → LoopOut
  | [] => ⟨[], 0, .noResult⟩
  | (distinct, cluster_utc, cluster) :: rest =>
    let elapsed := cluster_utc - ctx.last_result_time
    let dof : ℤ := (distinct : ℤ) + (ctx.altitude_dof : ℤ) - 4
    if elapsed < 2 ∧ (dof : ℚ) < (ctx.last_result_dof : ℚ) - elapsed + 1/2 then
      ⟨[], 0, .abortAll⟩
    else
      let altitude_error : Option ℚ :=
        match ctx.decodedAlt with
        | some _ => some (250 * ctx.FTOM)
        | none =>
          match ctx.altitude with
          | some _ => some ((250 + (cluster_utc - ctx.last_altitude_time) * 70) * ctx.FTOM)
          | none => none
      let clusterS := List.insertionSort cmLe cluster
      if elapsed > 30 ∧ dof = 0 then clusterLoop ctx rest
      else
        let initial_guess : Option Ecef :=
          if elapsed < 60 then ctx.last_result_position
          else some (ctx.position (clusterS.headD ⟨0, 0, 0⟩).rcv)
        let call : SolveCall := (clusterS, ctx.altitude, altitude_error, initial_guess)
        match ctx.solve clusterS ctx.altitude altitude_error initial_guess with
        | none =>
          let o := clusterLoop ctx rest
          ⟨call :: o.calls, o.succ, o.res⟩
        | some (ecef, covO) =>
          match covO with
          | none =>
            let o := clusterLoop ctx rest
            ⟨call :: o.calls, o.succ, o.res⟩
          | some cov =>
            let var_est := covTrace cov
            let err : ℕ := pyIntSqrt |var_est|
            if (err : ℚ) > 10000 then
              let o := clusterLoop ctx rest
              ⟨call :: o.calls, o.succ, o.res⟩
            else if elapsed / 20 < (err : ℚ) / 10000 then
              let o := clusterLoop ctx rest
              ⟨call :: o.calls, o.succ + 1, o.res⟩
            else
              ⟨[call], 1, .accepted ⟨ecef, cov, var_est, err, altitude_error,
                                     distinct, cluster_utc, clusterS, dof⟩⟩

/-! ## Group & cohort batching: `MlatTracker.receiver_mlat` -/

/-- A `MessageGroup`.  The `handle` field (always `MlatTracker._resolve`) is
not part of the data. -/
structure Group where
  message : ℕ
  first_seen : ℚ
  copies : List (ℕ × ℚ × ℚ)
  receivers : Finset ℕ
  deriving DecidableEq

/-- Per-aircraft state, the fields of the tracker's aircraft objects that
`_resolve` reads or writes.  Python's falsy tests are modelled as:
`not ac.last_altitude_time` ↔ `last_altitude_time = 0`, and
`if ac.vrate` ↔ `vrate ≠ 0`. -/
structure Aircraft where
  icao : ℕ
  allow_mlat : Bool
  seen : ℚ
  mlat_message_count : ℕ
  altitude : Option ℤ
  last_altitude_time : ℚ
  alt_history : List (ℚ × ℤ)
  vrate : ℤ
  vrate_time : ℚ
  squawk : Option ℕ
  callsign : Option String
  last_resolve_attempt : ℚ
  last_result_position : Option Ecef
  last_result_var : ℚ
  last_result_dof : ℤ
  last_result_time : ℚ
  mlat_result_count : ℕ
  mlat_kalman_count : ℕ
  deriving DecidableEq

/-- The tracker state touched by `receiver_mlat` and `_resolve`.  The current
`Cohort` is represented by its creation time, its `len`, and a running id;
`groupCohort` records, for each message key, the id of the cohort its group
was appended to (the cohort's `groups` list, observed per message). -/
structure MState where
  pending : ℕ → Option Group
  cohortCreation : ℚ
  cohortLen : ℕ
  cohortId : ℕ
  groupCohort : ℕ → Option ℕ
  aircraft : ℕ → Option Aircraft
  stats_mlat_msgs : ℕ
  stats_valid_groups : ℕ
  stats_normalize : ℕ
  stats_solve_attempt : ℕ
  stats_solve_success : ℕ
  stats_solve_used : ℕ

/-- The tracker right after `MlatTracker.__init__`: empty pending map and a
fresh cohort created at time `t0` with `len = 0`. -/
def initState (t0 : ℚ) : MState :=
  ⟨fun _ => none, t0, 0, 0, fun _ => none, fun _ => none, 0, 0, 0, 0, 0, 0⟩

/-- The tail of `receiver_mlat` shared by both the lookup and the creation
path: add the calling receiver to the group's receiver set, then append the
observation to `copies` unless the group already holds more than `MAXG`
(`config.MAX_GROUP`) copies. -/
def groupUpdate (MAXG : ℕ) (g : Group) (receiver : ℕ) (timestamp now : ℚ) : Group :=
  let g1 : Group := { g with receivers := insert receiver g.receivers }
  if g1.copies.length > MAXG then g1
  else { g1 with copies := g1.copies ++ [(receiver, timestamp, now)] }

/-- `MlatTracker.receiver_mlat(receiver, timestamp, message, now)`.  On a new
message a group is created and put into the pending map; a new cohort is
opened first when the current cohort is older than 50 ms (`0.05`) or holds
more than 25 groups. -/
def receiver_mlat (MAXG : ℕ) (st : MState) (receiver : ℕ) (timestamp : ℚ)
    (message : ℕ) (now : ℚ) : MState :=
  let st1 := { st with stats_mlat_msgs := st.stats_mlat_msgs + 1 }
  match st1.pending message with
  | some g =>
    { st1 with pending := fun m =>
        if m = message then some (groupUpdate MAXG g receiver timestamp now)
        else st1.pending m }
  | none =>
    let st2 :=
      if now - st1.cohortCreation > 1/20 ∨ st1.cohortLen > 25 then
        { st1 with cohortCreation := now, cohortLen := 0, cohortId := st1.cohortId + 1 }
      else st1
    let g0 : Group := ⟨message, now, [], ∅⟩
    { st2 with
      cohortLen := st2.cohortLen + 1,
      groupCohort := fun m => if m = message then some st2.cohortId else st2.groupCohort m,
      pending := fun m =>
        if m = message then some (groupUpdate MAXG g0 receiver timestamp now)
        else st2.pending m }

/-! ## The resolve pipeline: `MlatTracker._resolve` -/

/-- The result of `modes_cython.message.decode`.  A missing (`None`) or zero
address are both falsy in `not decoded.address`, so the address is a plain
natural with `0` meaning absent. -/
structure Decoded where
  address : ℕ
  altitude : Option ℤ
  squawk : Option ℕ
  callsign : Option String
  deriving DecidableEq

/-- The external collaborators of `_resolve` and the configuration constants
(the `config`, `constants`, `clocktrack`, `solver`, `geodesy` and Kalman
modules are outside the given sources and are treated as interfaces, per the
spec).  `normalize2` returning `none` models it raising an exception.
`kalmanUpdateNoAlt` is the `ac.kalman.update(..., solved_alt,
4000 / math.sqrt(dof + 1), ...)` call: the altitude error `4000/√(dof+1)` is
irrational, so the opaque callback receives `dof` itself. -/
structure REnv where
  decode : ℕ → Option Decoded
  normalize2 : List (ℕ × List (ℚ × ℚ)) → Option (List Component)
  solve : List CMember → Option ℚ → Option ℚ → Option Ecef → Option (Ecef × Option Cov)
  kalmanUpdateAlt : ℚ → List CMember → ℚ → Option ℚ → Ecef → Cov → ℕ → ℤ → Bool
  kalmanUpdateNoAlt : ℚ → List CMember → ℚ → Ecef → Cov → ℕ → ℤ → Bool
  ecef2llh : Ecef → ℚ × ℚ × ℚ
  llh2ecef : ℚ × ℚ × ℚ → Ecef
  position : ℕ → Ecef
  dist : ℕ → ℕ → ℚ
  Cair : ℚ
  FTOM : ℚ
  RESOLVE_INTERVAL : ℚ
  RESOLVE_BACKOFF : ℚ
  MIN_ALT : ℤ
  MAX_ALT : ℤ

/-- The altitude acceptance block of `_resolve` (lines 157-182).  Returns
`none` exactly when `new_hist[0]` would index an empty list (shown unreachable
below: the history has just been appended to).  When `last_altitude_time ≠ 0`
the tracked `altitude` was set along with it, so `getD 0` in the 4000 ft jump
test is never the default. -/
def altitudeUpdate (ac : Aircraft) (first_seen : ℚ) (decodedAlt : Option ℤ) :
    Option Aircraft :=
  match decodedAlt with
  | none => some ac
  | some alt =>
    if alt > -1500 ∧ alt < 75000 then
      if ac.last_altitude_time = 0 ∨
          (first_seen > ac.last_altitude_time ∧
            (first_seen - ac.last_altitude_time > 15 ∨ |ac.altitude.getD 0 - alt| < 4000)) then
        let new_hist := ac.alt_history.filter fun p => first_seen - p.1 < 20
        let hist2 := new_hist ++ [(first_seen, alt)]
        match hist2.head? with
        | none => none
        | some h0 =>
          let ac1 := { ac with altitude := some alt, last_altitude_time := first_seen,
                               alt_history := hist2 }
          let ts_diff := first_seen - h0.1
          if ts_diff > 10 then
            let new_vrate : ℚ := ((alt : ℚ) - (h0.2 : ℚ)) / (ts_diff / 60)
            let v : ℤ :=
              if ac1.vrate ≠ 0 ∧ first_seen - ac1.vrate_time < 15 then
                pyInt ((ac1.vrate : ℚ) + (3/10) * (new_vrate - (ac1.vrate : ℚ)))
              else pyInt new_vrate
            some { ac1 with vrate := v, vrate_time := first_seen }
          else some ac1
      else some ac
    else some ac

/-- `if decoded.squawk is not None: ac.squawk = decoded.squawk`. -/
def applySquawk (ac : Aircraft) (sq : Option ℕ) : Aircraft :=
  match sq with
  | some s => { ac with squawk := some s }
  | none => ac

/-- `if decoded.callsign is not None: ac.callsign = decoded.callsign`. -/
def applyCallsign (ac : Aircraft) (cs : Option String) : Aircraft :=
  match cs with
  | some c => { ac with callsign := some c }
  | none => ac

/-- The altitude-constraint decision of `_resolve` (lines 215-225): no
constraint when the tracked altitude is unknown, out of
`[MIN_ALT, MAX_ALT]`, or older than `last_altitude_time + 45`; otherwise the
tracked altitude in metres with one extra degree of freedom. -/
def altitudeDecision (env : REnv) (fs : ℚ) (ac : Aircraft) : Option ℚ × ℕ :=
  match ac.altitude with
  | none => (none, 0)
  | some alt =>
    if alt < env.MIN_ALT ∨ alt > env.MAX_ALT ∨ fs > ac.last_altitude_time + 45 then (none, 0)
    else (some ((alt : ℚ) * env.FTOM), 1)

/-- One step of `timestamp_map.setdefault(receiver, []).append((timestamp, utc))`. -/
def addTs : List (ℕ × List (ℚ × ℚ)) → ℕ → ℚ × ℚ → List (ℕ × List (ℚ × ℚ))
  | [], r, tu => [(r, [tu])]
  | (r', l) :: rest, r, tu =>
    if r' = r then (r', l ++ [tu]) :: rest else (r', l) :: addTs rest r tu

/-- The `receiver -> [(timestamp, utc)]` map built from `group.copies`
(insertion-ordered, as a Python dict). -/
def buildTimestampMap (copies : List (ℕ × ℚ × ℚ)) : List (ℕ × List (ℚ × ℚ)) :=
  copies.foldl (fun m c => addTs m c.1 (c.2.1, c.2.2)) []

/-- `clusters.sort(key=lambda x: (x[0], x[1]))`: lexicographic on
`(distinct, first_seen)`. -/
def clLex (a b : ClusterT) : Prop := a.1 < b.1 ∨ (a.1 = b.1 ∧ a.2.1 ≤ b.2.1)

instance : DecidableRel clLex := fun a b =>
  inferInstanceAs (Decidable (a.1 < b.1 ∨ (a.1 = b.1 ∧ a.2.1 ≤ b.2.1)))

/-- The arguments passed to every registered output handler. -/
structure OutCall where
  utc : ℚ
  address : ℕ
  ecef : Ecef
  cov : Cov
  receivers : List ℕ
  distinct : ℕ
  dof : ℤ
  err : ℕ
  deriving DecidableEq

/-- The observable effects of one `_resolve` run (besides state mutation):
solver invocations, the output-handler dispatch, the `forward_results` call
and the Kalman update result.  The pseudorange log record (pure file I/O) is
not modelled. -/
structure Effects where
  solveCalls : List SolveCall
  output : Option OutCall
  forward : Option OutCall
  kalmanOk : Option Bool

/-- No effects. -/
def noEff : Effects := ⟨[], none, none, none⟩

/-- The part of a `_resolve` run that concerns the looked-up aircraft:
its new state, the effects, the statistics increments, and whether the
(unreachable) `new_hist[0]` IndexError was hit. -/
structure CoreOut where
  ac : Aircraft
  eff : Effects
  normBump : ℕ
  attempts : ℕ
  succ : ℕ
  used : ℕ
  crash : Bool

/-- Lines 350-385 of `_resolve`: a result was accepted.  Store the
`last_result_*` fields, then feed the Kalman filter — with the tracked
altitude spliced into the ECEF when available (and that replaced ECEF is what
the output handlers and `forward_results` then receive) — and dispatch. -/
def acceptResult (env : REnv) (dec : Decoded) (g : Group) (ac : Aircraft)
    (altitude : Option ℚ) (a : Accepted) (lo : LoopOut) : CoreOut :=
  let ac6 := { ac with
    last_result_position := some a.ecef, last_result_var := a.varEst,
    last_result_dof := a.dof, last_result_time := a.clusterUtc,
    mlat_result_count := ac.mlat_result_count + 1 }
  match altitude with
  | some altQ =>
    let llh := env.ecef2llh a.ecef
    let ecef2 := env.llh2ecef (llh.1, llh.2.1, altQ)
    let kOk := env.kalmanUpdateAlt a.clusterUtc a.cluster altQ a.altErr ecef2 a.cov a.distinct a.dof
    let ac7 := if kOk then { ac6 with mlat_kalman_count := ac6.mlat_kalman_count + 1 } else ac6
    ⟨ac7,
     ⟨lo.calls,
      some ⟨a.clusterUtc, dec.address, ecef2, a.cov, a.cluster.map CMember.rcv, a.distinct, a.dof, a.err⟩,
      some ⟨a.clusterUtc, dec.address, ecef2, a.cov, g.receivers.sort (· ≤ ·), a.distinct, a.dof, a.err⟩,
      some kOk⟩,
     1, lo.calls.length, lo.succ, 1, false⟩
  | none =>
    let llh := env.ecef2llh a.ecef
    let kOk := env.kalmanUpdateNoAlt a.clusterUtc a.cluster llh.2.2 a.ecef a.cov a.distinct a.dof
    let ac7 := if kOk then { ac6 with mlat_kalman_count := ac6.mlat_kalman_count + 1 } else ac6
    ⟨ac7,
     ⟨lo.calls,
      some ⟨a.clusterUtc, dec.address, a.ecef, a.cov, a.cluster.map CMember.rcv, a.distinct, a.dof, a.err⟩,
      some ⟨a.clusterUtc, dec.address, a.ecef, a.cov, g.receivers.sort (· ≤ ·), a.distinct, a.dof, a.err⟩,
      some kOk⟩,
     1, lo.calls.length, lo.succ, 1, false⟩

/-- `elapsed = max(0, elapsed)` (lines 206-209). -/
def clampElapsed (q : ℚ) : ℚ := if q < 0 then 0 else q

/-- The prior-result window of `_resolve` (lines 195-204): when there is no
prior position or it is older than 120 s, the prior is treated as absent:
`(last_result_position, last_result_dof, last_result_time)` become
`(None, 0, first_seen - 120)`.  (The local `last_result_var = 1e9` of the
source is dead — only commented-out code reads it — and is omitted.) -/
def priorWindow (g : Group) (ac : Aircraft) : Option Ecef × ℤ × ℚ :=
  if ac.last_result_position = none ∨ g.first_seen - ac.last_result_time > 120 then
    (none, 0, g.first_seen - 120)
  else (ac.last_result_position, ac.last_result_dof, ac.last_result_time)

/-- Lines 214-348 of `_resolve`: the altitude constraint and DOF gates, clock
normalization, clustering, the cluster selection loop, and acceptance.
`lrp`, `lrd`, `lrt` are the prior-window snapshot and `elapsed` the (clamped)
time since the prior result. -/
def resolveSolve (env : REnv) (dec : Decoded) (g : Group) (ac5 : Aircraft)
    (lrp : Option Ecef) (lrd : ℤ) (lrt elapsed : ℚ) : CoreOut :=
  let altPair := altitudeDecision env g.first_seen ac5
  let altitude := altPair.1
  let altitude_dof := altPair.2
  let max_dof : ℤ := (g.copies.length : ℤ) + (altitude_dof : ℤ) - 4
  if max_dof < 0 then ⟨ac5, noEff, 0, 0, 0, 0, false⟩
  else if elapsed < 2 * env.RESOLVE_BACKOFF ∧
      (max_dof : ℚ) < (lrd : ℚ) - elapsed + 1/2 then ⟨ac5, noEff, 0, 0, 0, 0, false⟩
  else
    let tsm := buildTimestampMap g.copies
    let dof0 : ℤ := (tsm.length : ℤ) + (altitude_dof : ℤ) - 4
    if dof0 < 0 then ⟨ac5, noEff, 0, 0, 0, 0, false⟩
    else if elapsed < 2 * env.RESOLVE_BACKOFF ∧
        (dof0 : ℚ) < (lrd : ℚ) - elapsed + 1/2 then ⟨ac5, noEff, 0, 0, 0, 0, false⟩
    else
      match env.normalize2 tsm with
      | none => ⟨ac5, noEff, 1, 0, 0, 0, false⟩
      | some comps =>
        let mcs := 4 - altitude_dof
        let clusters := comps.flatMap fun comp =>
          if mcs ≤ comp.length then cluster_timestamps env.dist env.Cair comp mcs
          else []
        if clusters = [] then ⟨ac5, noEff, 1, 0, 0, 0, false⟩
        else
          let ctx : LoopCtx := ⟨env.solve, env.position, env.FTOM, dec.altitude,
            altitude, altitude_dof, ac5.last_altitude_time, lrp, lrd, lrt⟩
          let lo := clusterLoop ctx (List.insertionSort clLex clusters).reverse
          match lo.res with
          | .abortAll =>
            ⟨ac5, { noEff with solveCalls := lo.calls }, 1, lo.calls.length, lo.succ, 0, false⟩
          | .noResult =>
            ⟨ac5, { noEff with solveCalls := lo.calls }, 1, lo.calls.length, lo.succ, 0, false⟩
          | .accepted a => acceptResult env dec g ac5 altitude a lo

/-- Lines 143-385 of `_resolve`, from the aircraft lookup onwards: per-group
aircraft state update, the gate cascade, and `resolveSolve`. -/
def resolveCore (env : REnv) (dec : Decoded) (g : Group) (now : ℚ) (ac0 : Aircraft) : CoreOut :=
  let ac1 := { ac0 with seen := now, mlat_message_count := ac0.mlat_message_count + 1 }
  if ac1.allow_mlat = false then ⟨ac1, noEff, 0, 0, 0, 0, false⟩
  else
    match altitudeUpdate ac1 g.first_seen dec.altitude with
    | none => ⟨ac1, noEff, 0, 0, 0, 0, true⟩
    | some ac2 =>
      let ac4 := applyCallsign (applySquawk ac2 dec.squawk) dec.callsign
      if now - ac4.last_resolve_attempt < env.RESOLVE_INTERVAL then ⟨ac4, noEff, 0, 0, 0, 0, false⟩
      else
        let ac5 := { ac4 with last_resolve_attempt := now }
        let pw := priorWindow g ac5
        let elapsed := clampElapsed (g.first_seen - pw.2.2)
        if elapsed < env.RESOLVE_BACKOFF then ⟨ac5, noEff, 0, 0, 0, 0, false⟩
        else resolveSolve env dec g ac5 pw.1 pw.2.1 pw.2.2 elapsed

/-- The outcome of `_resolve`: `err` models an uncaught exception (with the
state at the raise point). -/
inductive RResult where
  | err : MState → RResult
  | ok : MState → Effects → RResult

/-- The tracker state after a `_resolve` run, whether it raised or not. -/
def RResult.state : RResult → MState
  | .err st => st
  | .ok st _ => st

/-- `MlatTracker._resolve(group)`.  The very first statement is
`del self.pending[group.message]`, which raises `KeyError` when the key is
absent; then the copy-count, decode, aircraft-lookup and partition gates run,
then `resolveCore`. -/
def resolveGroup (env : REnv) (st : MState) (g : Group) (now : ℚ) : RResult :=
  match st.pending g.message with
  | none => .err st
  | some _ =>
    let st1 := { st with pending := fun m => if m = g.message then none else st.pending m }
    if g.copies.length < 3 then .ok st1 noEff
    else
      match env.decode g.message with
      | none => .ok st1 noEff
      | some dec =>
        if dec.address = 0 then .ok st1 noEff
        else
          match st1.aircraft dec.address with
          | none => .ok st1 noEff
          | some ac0 =>
            let co := resolveCore env dec g now ac0
            let st2 := { st1 with
              aircraft := fun a => if a = dec.address then some co.ac else st1.aircraft a,
              stats_valid_groups := st1.stats_valid_groups + 1,
              stats_normalize := st1.stats_normalize + co.normBump,
              stats_solve_attempt := st1.stats_solve_attempt + co.attempts,
              stats_solve_success := st1.stats_solve_success + co.succ,
              stats_solve_used := st1.stats_solve_used + co.used }
            if co.crash then .err st2 else .ok st2 co.eff

/-! ## The blacklist: `MlatTracker.read_blacklist` -/

/-- ASCII whitespace as stripped by Python's `str.strip()` (the characters
that can occur in a text line here). -/
def pyWhitespace (c : Char) : Bool :=
  c = ' ' ∨ c = '\t' ∨ c = '\n' ∨ c = '\r'

/-- Python `str.strip()`. -/
def pyStrip (s : String) : String :=
  String.mk (((s.toList.dropWhile pyWhitespace).reverse.dropWhile pyWhitespace).reverse)

/-- `MlatTracker.read_blacklist`.  The file is a list of its lines (without
terminators); `none` for the file models `FileNotFoundError` (caught and
ignored).  The code reads exactly one line: `user = f.readline().strip()`,
adding it to the fresh set when non-empty; the tracker's blacklist is then
replaced by that set wholesale (the previous set is not an input). -/
def read_blacklist (filename : Option String) (file : Option (List String)) : Finset String :=
  match filename with
  | none => ∅
  | some _ =>
    match file with
    | none => ∅
    | some lines =>
      let user := pyStrip (lines.headD "")
      if user ≠ "" then {user} else ∅

/-- Modelled from the spec: "first non-empty line is a user identifier added
to the blacklist set" — the set holding the first non-empty line of the file,
stripped (claim C9's reading of `read_blacklist`). -/
def blacklistSpec (filename : Option String) (file : Option (List String)) : Finset String :=
  match filename with
  | none => ∅
  | some _ =>
    match file with
    | none => ∅
    | some lines =>
      match lines.find? (fun l => !(l == "")) with
      | some l => if pyStrip l ≠ "" then {pyStrip l} else ∅
      | none => ∅

/-- The amended contract of `read_blacklist`: only the *first* line of the
file is ever read; the blacklist is the stripped first line when that strip
is non-empty, and empty otherwise (file absent, no filename, or first line
blank). -/
def blacklistAmended (filename : Option String) (file : Option (List String)) : Finset String :=
  match filename, file with
  | some _, some lines =>
    if pyStrip (lines.headD "") ≠ "" then {pyStrip (lines.headD "")} else ∅
  | _, _ => ∅

/-! ## Predicates used by the statements -/

/-- The relation between an earlier cluster member `a` and a later-added
member `b`: when `b` was admitted, `pairCheck` tested it against `a` with
`d = b.distance[a.uid]`. -/
def goodPair (dist : ℕ → ℕ → ℚ) (Cair : ℚ) (a b : CMember) : Prop :=
  a.rcv ≠ b.rcv ∧ |a.ts - b.ts| ≤ (dist b.rcv a.rcv * (21/20) + 1000) / Cair

/-- The invariants of an emitted cluster `(distinct, first_seen, members)`:
enough distinct receivers, pairwise consistency in build order (the emitted
list is the build order reversed), and 2 ms spread. -/
def ClusterOk (dist : ℕ → ℕ → ℚ) (Cair : ℚ) (minR : ℕ) (c : ClusterT) : Prop :=
  minR ≤ c.1 ∧
  c.2.2.Pairwise (fun a b => goodPair dist Cair b a) ∧
  ∀ a ∈ c.2.2, ∀ b ∈ c.2.2, |a.ts - b.ts| ≤ 1/500

/-! ## Concrete data for witnesses and counterexamples -/

/-- Three mutually distant receivers (2 km apart, zero self-distance). -/
def wDist : ℕ → ℕ → ℚ := fun i j => if i = j then 0 else 2000

/-- A component in which receivers 1, 2, 3 hear the same transmission at the
same normalized timestamp (utc times 100, 101, 102). -/
def wComponent : Component := [(1, 0, [(0, 100)]), (2, 0, [(0, 101)]), (3, 0, [(0, 102)])]

/-- The single cluster the Cluster Engine produces from `wComponent`. -/
def wCluster : List CMember := [⟨1, 0, 0⟩, ⟨2, 0, 0⟩, ⟨3, 0, 0⟩]

/-- A solver stub returning position `(0,0,0)` and a covariance with trace `tr`. -/
def constSolve (tr : ℚ) :
    List CMember → Option ℚ → Option ℚ → Option Ecef → Option (Ecef × Option Cov) :=
  fun _ _ _ _ => some ((0, 0, 0), some ⟨tr, 0, 0, 0, 0, 0, 0, 0, 0⟩)

/-- A loop context with `last_result_time = 0`, `last_result_dof = 0`, no
altitude information, and the stub solver. -/
def scCtx (tr : ℚ) : LoopCtx :=
  ⟨constSolve tr, fun _ => (0, 0, 0), 381/1250, none, none, 0, 0, none, 0, 0⟩

/-- A loop context whose last result had `dof = 5` (for the freshness gate). -/
def c5Ctx : LoopCtx :=
  ⟨fun _ _ _ _ => none, fun _ => (0, 0, 0), 381/1250, none, none, 0, 0, none, 5, 0⟩

/-- The record accepted by the loop in the quality-throttle scenario
(`error = 5 km`, `elapsed = 15 s`). -/
def wAccepted : Accepted :=
  ⟨(0, 0, 0), ⟨25000000, 0, 0, 0, 0, 0, 0, 0, 0⟩, 25000000, 5000, none, 4, 15, [], 0⟩

/-- The record accepted by the loop in the C3 counterexample
(covariance trace `100020000 m²`, `elapsed = 20 s`). -/
def cexAccepted : Accepted :=
  ⟨(0, 0, 0), ⟨100020000, 0, 0, 0, 0, 0, 0, 0, 0⟩, 100020000, 10000, none, 4, 20, [], 0⟩

/-- Feed the given distinct message keys at time 0, one copy each from
receiver 7, starting from a freshly initialised tracker (cohort created at
time 0, so every arrival is within 50 ms of the cohort's creation). -/
def feedAll (MAXG : ℕ) (ms : List ℕ) : MState :=
  ms.foldl (fun st k => receiver_mlat MAXG st 7 0 k 0) (initState 0)

/-- 26 distinct message keys. -/
def msgs26 : List ℕ :=
  [1, 2, 3, 4, 5, 6, 7, 8, 9, 10, 11, 12, 13, 14, 15, 16, 17, 18, 19, 20,
   21, 22, 23, 24, 25, 26]

/-- 27 distinct message keys. -/
def msgs27 : List ℕ := msgs26 ++ [27]

/-- The per-group invariant of claim C6: the copies list never exceeds
`MAX_GROUP + 1` entries, and every receiver appearing in `copies` is in the
`receivers` set. -/
def GroupInv (MAXG : ℕ) (g : Group) : Prop :=
  g.copies.length ≤ MAXG + 1 ∧ ∀ c ∈ g.copies, c.1 ∈ g.receivers

/-- `GroupInv` for every group in the pending map. -/
def PendingInv (MAXG : ℕ) (st : MState) : Prop :=
  ∀ m g, st.pending m = some g → GroupInv MAXG g

/-- A pending map entry for the C6 witness: a group already over the cap
(`MAX_GROUP = 1`, two copies). -/
def c6Group : Group := ⟨5, 0, [(1, 0, 0), (2, 0, 0)], {1, 2}⟩

/-- A tracker state holding `c6Group` under key 5. -/
def c6State : MState :=
  ⟨fun m => if m = 5 then some c6Group else none, 0, 2, 0,
   fun m => if m = 5 then some 0 else none, fun _ => none, 2, 0, 0, 0, 0, 0⟩

/-- An inert environment: decode and normalize fail, the solver returns
nothing, geodesy and distances are constant. -/
def cexEnv : REnv :=
  ⟨fun _ => none, fun _ => none, fun _ _ _ _ => none,
   fun _ _ _ _ _ _ _ _ => false, fun _ _ _ _ _ _ _ => false,
   fun _ => (0, 0, 0), fun _ => (0, 0, 0), fun _ => (0, 0, 0), fun _ _ => 0,
   299792458, 381/1250, 0, 0, -1000, 50000⟩

/-- A group (message key 5) that is not in the pending map of `initState`. -/
def cexGroup : Group := ⟨5, 0, [], ∅⟩

/-- An aircraft with a prior result (for the C4 witness). -/
def c4Ac : Aircraft :=
  ⟨123, true, 0, 0, none, 0, [], 0, 0, none, none, 0, some (1, 2, 3), 0, 0, 50, 0, 0⟩

/-- A state holding `cexGroup` pending and `c4Ac` under address 7. -/
def c4State : MState :=
  ⟨fun m => if m = 5 then some cexGroup else none, 0, 1, 0, fun _ => none,
   fun a => if a = 7 then some c4Ac else none, 0, 0, 0, 0, 0, 0⟩

/-- An aircraft with no altitude history (for the C10 witness). -/
def wAc : Aircraft :=
  ⟨200, true, 0, 0, none, 0, [], 0, 0, none, none, 0, none, 0, 0, 0, 0, 0⟩

/-- The expected result of the altitude block on `wAc` at `first_seen = 100`
with decoded altitude 5000 ft. -/
def c10Ac : Aircraft :=
  { wAc with altitude := some 5000, last_altitude_time := 100,
             alt_history := [(100, 5000)] }

/-! ## Theorems -/

/-- `pairCheck` returning `can_cluster = True` means the candidate passed the
duplicate-receiver and range/time tests against every current member. -/
theorem pairCheck_sound (dist : ℕ → ℕ → ℚ) (Cair : ℚ) (o : Obs) :
    ∀ (ms : List CMember) (isd : Bool),
      (pairCheck dist Cair o ms isd).1 = true →
      ∀ m ∈ ms, m.rcv ≠ o.rcv ∧
        |m.ts - o.ts| ≤ (dist o.rcv m.rcv * (21/20) + 1000) / Cair := by
  intro ms
  induction ms with
  | nil =>
    intro isd _ m hm
    exact absurd hm (List.not_mem_nil m)
  | cons m' ms ih =>
    intro isd h m hm
    rw [pairCheck] at h
    by_cases h1 : m'.rcv = o.rcv
    · rw [if_pos h1] at h
      simp at h
    · rw [if_neg h1] at h
      by_cases h2 : |m'.ts - o.ts| > (dist o.rcv m'.rcv * (21/20) + 1000) / Cair
      · rw [if_pos h2] at h
        simp at h
      · rw [if_neg h2] at h
        rcases List.mem_cons.mp hm with rfl | hm'
        · exact ⟨h1, not_lt.mp h2⟩
        · exact ih _ h m hm'

/-- Invariants of the candidate walk: the grown cluster stays pairwise
consistent and inside the seed's 2 ms window, and the leftover group elements
form a sublist of the input. -/
theorem extractLoop_inv (dist : ℕ → ℕ → ℚ) (Cair : ℚ) (seedTs : ℚ) :
    ∀ (l : List Obs) (cl : List CMember) (dn : ℕ) (fs : ℚ),
      cl.Pairwise (goodPair dist Cair) →
      (∀ m ∈ cl, m.ts ≤ seedTs ∧ seedTs - m.ts ≤ 1/500) →
      (∀ o ∈ l, o.ts ≤ seedTs) →
      (extractLoop dist Cair seedTs l cl dn fs).cluster.Pairwise (goodPair dist Cair) ∧
        (∀ m ∈ (extractLoop dist Cair seedTs l cl dn fs).cluster,
          m.ts ≤ seedTs ∧ seedTs - m.ts ≤ 1/500) ∧
        (extractLoop dist Cair seedTs l cl dn fs).rem.Sublist l := by
  intro l
  induction l with
  | nil =>
    intro cl dn fs h1 h2 _
    rw [extractLoop]
    exact ⟨h1, h2, List.Sublist.refl _⟩
  | cons o rest ih =>
    intro cl dn fs h1 h2 h3
    rw [extractLoop]
    by_cases hb : seedTs - o.ts > 1/500
    · rw [if_pos hb]
      exact ⟨h1, h2, List.Sublist.refl _⟩
    · rw [if_neg hb]
      by_cases hc : (pairCheck dist Cair o cl true).1 = true
      · rw [if_pos hc]
        have hnew : ∀ m ∈ cl ++ [o.toMember], m.ts ≤ seedTs ∧ seedTs - m.ts ≤ 1/500 := by
          intro m hm
          rcases List.mem_append.mp hm with hm' | hm'
          · exact h2 m hm'
          · rcases List.mem_singleton.mp hm' with rfl
            exact ⟨h3 o (List.mem_cons_self o rest), not_lt.mp hb⟩
        have hpair : (cl ++ [o.toMember]).Pairwise (goodPair dist Cair) := by
          rw [List.pairwise_append]
          refine ⟨h1, List.pairwise_singleton _ _, ?_⟩
          intro a ha b hb'
          rcases List.mem_singleton.mp hb' with rfl
          exact pairCheck_sound dist Cair o cl true hc a ha
        have := ih (cl ++ [o.toMember])
          (if (pairCheck dist Cair o cl true).2 = true then dn + 1 else dn)
          (min fs o.utc) hpair hnew (fun x hx => h3 x (List.mem_cons_of_mem o hx))
        exact ⟨this.1, this.2.1, this.2.2.cons o⟩
      · rw [if_neg hc]
        have := ih cl dn fs h1 h2 (fun x hx => h3 x (List.mem_cons_of_mem o hx))
        exact ⟨this.1, this.2.1, this.2.2.cons₂ o⟩

/-- Every cluster emitted by the `while` loop from a timestamp-sorted group
satisfies `ClusterOk`. -/
theorem clusterWhile_ok (dist : ℕ → ℕ → ℚ) (Cair : ℚ) (minR : ℕ) :
    ∀ (fuel : ℕ) (grp : List Obs), grp.Sorted tsLe →
      ∀ c ∈ clusterWhile dist Cair minR fuel grp, ClusterOk dist Cair minR c := by
  intro fuel
  induction fuel with
  | zero =>
    intro grp _ c hc
    rw [clusterWhile] at hc
    exact absurd hc (List.not_mem_nil c)
  | succ fuel ih =>
    intro grp hs c hc
    rw [clusterWhile] at hc
    by_cases h : minR ≤ grp.length
    · rw [if_pos h] at hc
      rcases hrev : grp.reverse with _ | ⟨seed, restRev⟩
      · rw [hrev] at hc
        exact absurd hc (List.not_mem_nil c)
      · rw [hrev] at hc
        simp only [] at hc
        have hgrp : grp = restRev.reverse ++ [seed] := by
          rw [← List.reverse_reverse grp, hrev, List.reverse_cons]
        have hs' : (restRev.reverse ++ [seed]).Sorted tsLe := by
          rw [← hgrp]
          exact hs
        rw [List.Sorted, List.pairwise_append] at hs'
        obtain ⟨hsInit, _, hle⟩ := hs'
        have hmax : ∀ o ∈ restRev, o.ts ≤ seed.ts := by
          intro o ho
          exact hle o (List.mem_reverse.mpr ho) _ (List.mem_singleton_self _)
        have hseed : ∀ m ∈ [seed.toMember], m.ts ≤ seed.ts ∧ seed.ts - m.ts ≤ 1/500 := by
          intro m hm
          rcases List.mem_singleton.mp hm with rfl
          refine ⟨le_refl _, ?_⟩
          simp only [Obs.toMember]
          norm_num
        have hext := extractLoop_inv dist Cair seed.ts restRev [seed.toMember] 1 seed.utc
          (List.pairwise_singleton _ _) hseed hmax
        have hremSorted :
            (extractLoop dist Cair seed.ts restRev
              [seed.toMember] 1 seed.utc).rem.reverse.Sorted tsLe :=
          List.Pairwise.sublist hext.2.2.reverse hsInit
        by_cases hd : minR ≤ (extractLoop dist Cair seed.ts restRev
            [seed.toMember] 1 seed.utc).distinct
        · rw [if_pos hd] at hc
          rcases List.mem_cons.mp hc with rfl | hc'
          · refine ⟨hd, ?_, ?_⟩
            · exact List.pairwise_reverse.mpr hext.1
            · intro a ha b hb
              have ha' := hext.2.1 a (List.mem_reverse.mp ha)
              have hb' := hext.2.1 b (List.mem_reverse.mp hb)
              rw [abs_sub_le_iff]
              constructor <;> linarith [ha'.1, ha'.2, hb'.1, hb'.2]
          · exact ih _ hremSorted c hc'
        · rw [if_neg hd] at hc
          exact ih _ hremSorted c hc
    · rw [if_neg h] at hc
      exact absurd hc (List.not_mem_nil c)

/-- Groups produced by `roughAux` from a sorted tail are sorted. -/
theorem roughAux_sorted :
    ∀ (rest cur : List Obs) (lastO : Obs),
      (cur ++ [lastO]).Sorted tsLe → (lastO :: rest).Sorted tsLe →
      ∀ g ∈ roughAux cur lastO rest, g.Sorted tsLe := by
  intro rest
  induction rest with
  | nil =>
    intro cur lastO h1 _ g hg
    rw [roughAux] at hg
    rcases List.mem_singleton.mp hg with rfl
    exact h1
  | cons t rest ih =>
    intro cur lastO h1 h2 g hg
    rw [List.Sorted, List.pairwise_cons] at h2
    obtain ⟨hlt, h2'⟩ := h2
    rw [roughAux] at hg
    by_cases hgap : t.ts - lastO.ts > 1/500
    · rw [if_pos hgap] at hg
      rcases List.mem_cons.mp hg with rfl | hg'
      · exact h1
      · exact ih [] t (List.sorted_singleton t) h2' g hg'
    · rw [if_neg hgap] at hg
      have h1' : ((cur ++ [lastO]) ++ [t]).Sorted tsLe := by
        rw [List.Sorted, List.pairwise_append]
        refine ⟨h1, List.pairwise_singleton _ _, ?_⟩
        intro a ha b hb
        have hb' : b = t := List.mem_singleton.mp hb
        rw [hb']
        rcases List.mem_append.mp ha with ha' | ha'
        · have h1p := h1
          rw [List.Sorted, List.pairwise_append] at h1p
          exact le_trans (h1p.2.2 a ha' lastO (List.mem_singleton_self _))
            (hlt t (List.mem_cons_self t rest))
        · rcases List.mem_singleton.mp ha' with rfl
          exact hlt t (List.mem_cons_self t rest)
      exact ih (cur ++ [lastO]) t h1' h2' g hg

/-- Every rough group of a sorted flattened component is sorted. -/
theorem roughGroups_sorted (l : List Obs) (hl : l.Sorted tsLe) :
    ∀ g ∈ roughGroups l, g.Sorted tsLe := by
  cases l with
  | nil =>
    intro g hg
    rw [roughGroups] at hg
    exact absurd hg (List.not_mem_nil g)
  | cons x rest =>
    intro g hg
    rw [roughGroups] at hg
    exact roughAux_sorted rest [] x (List.sorted_singleton x) hl g hg

/-- C1.  Every cluster `(d, fs, cl)` emitted by the Cluster Engine
`_cluster_timestamps` satisfies: its distinct count is at least the
`min_receivers` argument; no receiver appears twice; the spread of normalized
timestamps is at most 2 ms (`1/500`); and every pair of distinct elements
satisfies `|Δt| ≤ (1.05·d + 1000 m) / c_air` with `d` the precomputed
distance between the two receivers (the distance table is symmetric, being a
distance). -/
theorem c1_cluster_engine_invariants (dist : ℕ → ℕ → ℚ) (Cair : ℚ)
    (hsym : ∀ i j, dist i j = dist j i) (component : Component) (minR : ℕ)
    (d : ℕ) (fs : ℚ) (cl : List CMember)
    (hmem : (d, fs, cl) ∈ cluster_timestamps dist Cair component minR) :
    minR ≤ d ∧ (cl.map CMember.rcv).Nodup ∧
    (∀ a ∈ cl, ∀ b ∈ cl, |a.ts - b.ts| ≤ 1/500) ∧
    (∀ a ∈ cl, ∀ b ∈ cl, a ≠ b →
      |a.ts - b.ts| ≤ (dist a.rcv b.rcv * (21/20) + 1000) / Cair) := by
  rw [cluster_timestamps] at hmem
  obtain ⟨grp, hg, hcg⟩ := List.mem_flatMap.mp hmem
  have hsort : grp.Sorted tsLe :=
    roughGroups_sorted _ (List.sorted_insertionSort tsLe _) grp hg
  have hok := clusterWhile_ok dist Cair minR grp.length grp hsort _ hcg
  obtain ⟨h1, h2, h3⟩ := hok
  refine ⟨h1, ?_, h3, ?_⟩
  · have hne : cl.Pairwise (fun a b => a.rcv ≠ b.rcv) :=
      h2.imp (fun hab => Ne.symm hab.1)
    exact List.pairwise_map.mpr hne
  · have hR : cl.Pairwise
        (fun a b => |a.ts - b.ts| ≤ (dist a.rcv b.rcv * (21/20) + 1000) / Cair) := by
      refine h2.imp ?_
      intro a b hab
      rw [abs_sub_comm]
      exact hab.2
    have hS : Symmetric
        (fun a b : CMember => |a.ts - b.ts| ≤ (dist a.rcv b.rcv * (21/20) + 1000) / Cair) := by
      intro a b hab
      rw [abs_sub_comm, hsym b.rcv a.rcv]
      exact hab
    exact fun a ha b hb hne => hR.forall hS ha hb hne

/-- Witness for C1: the hypotheses of `c1_cluster_engine_invariants` hold at a
concrete input — `wDist` is symmetric and `(3, 100, wCluster)` is actually
emitted by the Cluster Engine — and the conclusion follows there. -/
theorem c1_witness :
    (3, (100:ℚ), wCluster) ∈ cluster_timestamps wDist 1000 wComponent 3 ∧
    (wCluster.map CMember.rcv).Nodup := by
  have hmem : (3, (100:ℚ), wCluster) ∈ cluster_timestamps wDist 1000 wComponent 3 := by
    norm_num [cluster_timestamps, flattenComponent, wComponent, wDist, wCluster,
      List.insertionSort, List.orderedInsert, tsLe, roughGroups, roughAux,
      clusterWhile, extractLoop, pairCheck, Obs.toMember]
  have hsym : ∀ i j, wDist i j = wDist j i := by
    intro i j
    by_cases h : i = j
    · rw [h]
    · simp [wDist, h, Ne.symm h]
  exact ⟨hmem,
    (c1_cluster_engine_invariants wDist 1000 hsym wComponent 3 3 100 wCluster hmem).2.1⟩

/-- `Nat.sqrt 25000000 = 5000`. -/
theorem sqrt_25000000 : Nat.sqrt 25000000 = 5000 := by
  rw [show (25000000 : ℕ) = 5000 * 5000 by norm_num, Nat.sqrt_eq]

/-- `Nat.sqrt 100020000 = 10000` (since `10000² ≤ 100020000 < 10001²`). -/
theorem sqrt_100020000 : Nat.sqrt 100020000 = 10000 := by
  rw [show (100020000 : ℕ) = 10000 * 10000 + 20000 by norm_num]
  exact Nat.sqrt_add_eq 10000 (by norm_num)

/-- `int(math.sqrt(25000000)) = 5000`. -/
theorem pyIntSqrt_25000000 : pyIntSqrt 25000000 = 5000 := by
  rw [pyIntSqrt]
  have h2 : ((25000000 : ℚ) : ℚ) = ((25000000 : ℤ) : ℚ) := by norm_num
  rw [show ((25000000 : ℚ)) = ((25000000 : ℤ) : ℚ) by norm_num, Int.floor_intCast,
    show (25000000 : ℤ).toNat = 25000000 from rfl, sqrt_25000000]

/-- `int(math.sqrt(100020000)) = 10000`. -/
theorem pyIntSqrt_100020000 : pyIntSqrt 100020000 = 10000 := by
  rw [pyIntSqrt]
  rw [show ((100020000 : ℚ)) = ((100020000 : ℤ) : ℚ) by norm_num, Int.floor_intCast,
    show (100020000 : ℤ).toNat = 100020000 from rfl, sqrt_100020000]

/-- What acceptance by the cluster loop guarantees about the accepted record:
`var_est` is the covariance trace, `error = int(sqrt(|var_est|))`, the 10 km
error gate held, and the output-rate throttle held
(`error/max_error ≤ elapsed/20`). -/
theorem clusterLoop_accept (ctx : LoopCtx) :
    ∀ (cs : List ClusterT) (a : Accepted), (clusterLoop ctx cs).res = .accepted a →
      a.varEst = covTrace a.cov ∧
      a.err = pyIntSqrt |a.varEst| ∧
      (a.err : ℚ) ≤ 10000 ∧
      (a.err : ℚ) / 10000 ≤ (a.clusterUtc - ctx.last_result_time) / 20 := by
  intro cs
  induction cs with
  | nil =>
    intro a h
    rw [clusterLoop] at h
    exact absurd h (by simp)
  | cons c rest ih =>
    obtain ⟨d, utc, cl⟩ := c
    intro a h
    rw [clusterLoop] at h
    simp only [] at h
    split at h
    · exact absurd h (by simp)
    · split at h
      · exact ih a h
      · split at h
        · simp only [] at h
          exact ih a h
        · split at h
          · simp only [] at h
            exact ih a h
          · split at h
            · simp only [] at h
              exact ih a h
            · split at h
              · simp only [] at h
                exact ih a h
              · simp only [] at h
                rename_i hgate30 hsolve hcov herr hthr
                rw [LoopRes.accepted.injEq] at h
                subst h
                refine ⟨rfl, rfl, not_lt.mp herr, not_lt.mp hthr⟩

/-- An accepted result never moves `last_result_time` backwards: acceptance
requires `error/max_error ≤ elapsed/20` with `error ≥ 0`, so
`cluster_utc ≥ last_result_time`. -/
theorem clusterLoop_accept_utc (ctx : LoopCtx) (cs : List ClusterT) (a : Accepted)
    (h : (clusterLoop ctx cs).res = .accepted a) :
    ctx.last_result_time ≤ a.clusterUtc := by
  have hb := (clusterLoop_accept ctx cs a h).2.2.2
  have h0 : (0 : ℚ) ≤ (a.err : ℚ) / 10000 := by positivity
  linarith

/-- C3 counterexample.  The claim asserts `sqrt(trace(ecef_cov)) ≤ 10 km` for
every accepted result; over nonnegative reals that is equivalent to
`trace(ecef_cov) ≤ (10⁴ m)² = 10⁸ m²`.  But the code compares the *truncated*
`error = int(math.sqrt(trace))`: a solver covariance with trace
`100020000 m² > 10⁸ m²` (i.e. `√trace ≈ 10000.99995 m > 10 km`) still has
`error = 10000 ≤ max_error` and is accepted (at `elapsed = 20 s`, where the
claim would also need `elapsed/20 ≥ √trace/10⁴`, which likewise fails). -/
theorem c3_counterexample :
    (clusterLoop (scCtx 100020000) [(4, 20, [])]).res = .accepted cexAccepted ∧
    cexAccepted.varEst = covTrace cexAccepted.cov ∧
    ¬ ((cexAccepted.varEst : ℚ) ≤ 10000 ^ 2) := by
  refine ⟨?_, ?_, ?_⟩
  · norm_num [clusterLoop, scCtx, constSolve, covTrace, pyIntSqrt_100020000,
      List.insertionSort, cexAccepted]
  · norm_num [cexAccepted, covTrace]
  · norm_num [cexAccepted]

/-- C3 (amended).  For every result accepted by the cluster selection loop:
`error = int(sqrt(|trace(ecef_cov)|)) ≤ 10000 m` (equivalently
`trace < 10001² m²`) and `elapsed/20 ≥ error/10 km`, with `error` the
truncated integer square root the code computes — not the exact square root.
In particular a result with `error = 5 km` is rejected at `elapsed = 5 s`
(`5/20 < 5000/10⁴`) and accepted at `elapsed = 15 s`. -/
theorem c3_accepted_quality :
    (∀ (ctx : LoopCtx) (cs : List ClusterT) (a : Accepted),
        (clusterLoop ctx cs).res = .accepted a →
        a.err = pyIntSqrt |covTrace a.cov| ∧ (a.err : ℚ) ≤ 10000 ∧
        (a.err : ℚ) / 10000 ≤ (a.clusterUtc - ctx.last_result_time) / 20) ∧
    (clusterLoop (scCtx 25000000) [(4, 5, [])]).res = .noResult ∧
    (clusterLoop (scCtx 25000000) [(4, 15, [])]).res = .accepted wAccepted := by
  refine ⟨?_, ?_, ?_⟩
  · intro ctx cs a h
    obtain ⟨h1, h2, h3, h4⟩ := clusterLoop_accept ctx cs a h
    rw [h1] at h2
    exact ⟨h2, h3, h4⟩
  · norm_num [clusterLoop, scCtx, constSolve, covTrace, pyIntSqrt_25000000,
      List.insertionSort]
  · norm_num [clusterLoop, scCtx, constSolve, covTrace, pyIntSqrt_25000000,
      List.insertionSort, wAccepted]

/-- Witness for C3: the general bound of `c3_accepted_quality` applied to the
concrete accepted record of the `elapsed = 15 s` scenario. -/
theorem c3_witness :
    (wAccepted.err : ℚ) ≤ 10000 ∧
    (wAccepted.err : ℚ) / 10000 ≤
      (wAccepted.clusterUtc - (scCtx 25000000).last_result_time) / 20 := by
  have h := c3_accepted_quality
  have hb := h.1 (scCtx 25000000) [(4, 15, [])] wAccepted h.2.2
  exact ⟨hb.2.1, hb.2.2⟩

/-- C5.  If the popped cluster satisfies `elapsed < 2` and
`dof < last_result_dof − elapsed + 0.5`, the whole resolution returns
immediately: no solver call is made and no remaining cluster is attempted
(the loop result is `abortAll` with an empty call list, whatever `rest`
still holds). -/
theorem c5_freshness_gate_aborts_resolution (ctx : LoopCtx) (d : ℕ) (utc : ℚ)
    (cl : List CMember) (rest : List ClusterT)
    (h1 : utc - ctx.last_result_time < 2)
    (h2 : (((d : ℤ) + (ctx.altitude_dof : ℤ) - 4 : ℤ) : ℚ) <
      (ctx.last_result_dof : ℚ) - (utc - ctx.last_result_time) + 1/2) :
    clusterLoop ctx ((d, utc, cl) :: rest) = ⟨[], 0, .abortAll⟩ := by
  rw [clusterLoop]
  simp only []
  rw [if_pos ⟨h1, h2⟩]

/-- Witness for C5: the gate fires on a 4-receiver cluster arriving while a
recent `dof = 5` result is fresh, with another cluster still queued. -/
theorem c5_witness :
    clusterLoop c5Ctx [(4, 0, []), (99, 0, [])] = ⟨[], 0, .abortAll⟩ :=
  c5_freshness_gate_aborts_resolution c5Ctx 4 0 [] [(99, 0, [])]
    (by norm_num [c5Ctx]) (by norm_num [c5Ctx])

/-- C2 counterexample.  26 distinct messages all arriving within 50 ms of the
current cohort's creation do **not** open a second cohort: the rollover check
(`self.cohort.len > 25`) runs *before* the append, so at the 26th message the
cohort holds 25 groups, `25 > 25` fails, and the 26th group joins the same
(first) cohort, which then holds 26 groups. -/
theorem c2_counterexample :
    (feedAll 8 msgs26).groupCohort 26 = some 0 ∧
    (feedAll 8 msgs26).groupCohort 1 = some 0 ∧
    (feedAll 8 msgs26).cohortId = 0 ∧
    (feedAll 8 msgs26).cohortLen = 26 := by
  norm_num [feedAll, msgs26, receiver_mlat, initState, groupUpdate]

/-- C2 (amended).  The cohort rolls over after holding 26 groups: with 27
distinct messages arriving within 50 ms of the cohort's creation, messages
1-26 join the first cohort and the 27th message's group opens and joins a
second cohort (the `> 25` length check runs before the group is appended). -/
theorem c2_cohort_rollover :
    (feedAll 8 msgs27).groupCohort 27 = some 1 ∧
    (feedAll 8 msgs27).groupCohort 26 = some 0 ∧
    (feedAll 8 msgs27).groupCohort 1 = some 0 ∧
    (feedAll 8 msgs27).cohortId = 1 ∧
    (feedAll 8 msgs27).cohortLen = 1 := by
  norm_num [feedAll, msgs27, msgs26, receiver_mlat, initState, groupUpdate]

/-- `groupUpdate` preserves the per-group invariant: either the cap fires and
`copies` is unchanged, or one observation is appended to a list of at most
`MAX_GROUP` entries; the calling receiver always enters the set. -/
theorem groupUpdate_inv (MAXG : ℕ) (g : Group) (r : ℕ) (t now : ℚ)
    (h : GroupInv MAXG g) : GroupInv MAXG (groupUpdate MAXG g r t now) := by
  rw [groupUpdate]
  simp only []
  by_cases hlen : g.copies.length > MAXG
  · rw [if_pos hlen]
    exact ⟨h.1, fun c hc => Finset.mem_insert_of_mem (h.2 c hc)⟩
  · rw [if_neg hlen]
    constructor
    · simp only [List.length_append, List.length_singleton]
      omega
    · intro c hc
      rcases List.mem_append.mp hc with hc' | hc'
      · exact Finset.mem_insert_of_mem (h.2 c hc')
      · rcases List.mem_singleton.mp hc' with rfl
        exact Finset.mem_insert_self r _

/-- C6.  (i) A call on a group already holding more than `MAX_GROUP` copies
leaves `copies` unchanged while still adding the calling receiver to the
group's receiver set; (ii) `receiver_mlat` preserves the invariant that every
pending group has `len(copies) ≤ MAX_GROUP + 1` and its `receivers` set
contains every receiver appearing in `copies`; (iii) the invariant holds of
the freshly initialised tracker. -/
theorem c6_copy_cap (MAXG : ℕ) :
    (∀ (st : MState) (r : ℕ) (t now : ℚ) (m : ℕ) (g : Group),
      st.pending m = some g → g.copies.length > MAXG →
      (receiver_mlat MAXG st r t m now).pending m =
        some { g with receivers := insert r g.receivers }) ∧
    (∀ (st : MState) (r : ℕ) (t now : ℚ) (m : ℕ),
      PendingInv MAXG st → PendingInv MAXG (receiver_mlat MAXG st r t m now)) ∧
    (∀ t0 : ℚ, PendingInv MAXG (initState t0)) := by
  refine ⟨?_, ?_, ?_⟩
  · intro st r t now m g hg hlen
    rw [receiver_mlat]
    simp [hg, groupUpdate, hlen]
  · intro st r t now m hInv m' g' hg'
    rw [receiver_mlat] at hg'
    rcases hp : st.pending m with _ | g0
    · simp only [hp] at hg'
      have hbase : GroupInv MAXG ⟨m, now, [], ∅⟩ :=
        ⟨by simp, fun c hc => absurd hc (List.not_mem_nil c)⟩
      by_cases hroll : now - st.cohortCreation > 1/20 ∨ st.cohortLen > 25
      · simp only [if_pos hroll] at hg'
        by_cases hm : m' = m
        · simp only [if_pos hm] at hg'
          rw [← Option.some_inj.mp hg']
          exact groupUpdate_inv MAXG ⟨m, now, [], ∅⟩ r t now hbase
        · simp only [if_neg hm] at hg'
          exact hInv m' g' hg'
      · simp only [if_neg hroll] at hg'
        by_cases hm : m' = m
        · simp only [if_pos hm] at hg'
          rw [← Option.some_inj.mp hg']
          exact groupUpdate_inv MAXG ⟨m, now, [], ∅⟩ r t now hbase
        · simp only [if_neg hm] at hg'
          exact hInv m' g' hg'
    · simp only [hp] at hg'
      by_cases hm : m' = m
      · simp only [if_pos hm] at hg'
        rw [← Option.some_inj.mp hg']
        exact groupUpdate_inv MAXG g0 r t now (hInv m g0 hp)
      · simp only [if_neg hm] at hg'
        exact hInv m' g' hg'
  · intro t0 m g h
    simp [initState] at h

/-- Witness for C6: on a state whose group under key 5 already holds 2 copies
with `MAX_GROUP = 1`, a further call only grows the receiver set; and the
invariant holds initially. -/
theorem c6_witness :
    (receiver_mlat 1 c6State 9 0 5 0).pending 5 =
      some { c6Group with receivers := insert 9 c6Group.receivers } ∧
    PendingInv 1 (initState 0) := by
  constructor
  · exact (c6_copy_cap 1).1 c6State 9 0 0 5 c6Group (by norm_num [c6State])
      (by norm_num [c6Group])
  · exact (c6_copy_cap 1).2.2 0

/-- C7 counterexample.  Invoking `_resolve` on a group whose message key is
not (or no longer) in the pending map is **not** harmless: the very first
statement, `del self.pending[group.message]`, raises `KeyError` (the
embedding's `err` outcome) and the rest of the resolution does not proceed —
the removal is not idempotent. -/
theorem c7_counterexample :
    resolveGroup cexEnv (initState 0) cexGroup 0 = .err (initState 0) := by
  rw [resolveGroup]
  simp [initState, cexGroup]

/-- C7 (amended).  The first step of `_resolve` deletes the group's key from
the pending map; when the key is absent a `KeyError` is raised with the state
untouched, and when it is present the key is gone from the pending map in the
final state of every execution path. -/
theorem c7_pending_removal (env : REnv) (st : MState) (g : Group) (now : ℚ) :
    (st.pending g.message = none → resolveGroup env st g now = .err st) ∧
    (∀ g0, st.pending g.message = some g0 →
      (resolveGroup env st g now).state.pending g.message = none) := by
  constructor
  · intro h
    rw [resolveGroup]
    simp only [h]
  · intro g0 h
    rw [resolveGroup]
    simp only [h]
    repeat' split
    all_goals simp [RResult.state]

/-- Witness for C7: both branches of `c7_pending_removal` exercised — the
absent key raises on `initState`, and on a state holding key 5 the key is
removed. -/
theorem c7_witness :
    resolveGroup cexEnv (initState 0) cexGroup 0 = RResult.err (initState 0) ∧
    (resolveGroup cexEnv c6State cexGroup 0).state.pending 5 = none := by
  constructor
  · exact (c7_pending_removal cexEnv (initState 0) cexGroup 0).1 (by simp [initState])
  · exact (c7_pending_removal cexEnv c6State cexGroup 0).2 c6Group
      (by norm_num [c6State, cexGroup])

/-- C10.  The `new_hist[0]` access in the altitude-acceptance path never
indexes an empty list (the model's error case is unreachable: the history has
just been appended to), and when the pruned history was empty before the
append, `new_hist[0]` is the newly-appended sample, `ts_diff = 0`, and no
vrate update occurs (`ts_diff > 10` fails), so `vrate`/`vrate_time` are
unchanged and the history is exactly the new sample. -/
theorem c10_alt_history_head (ac : Aircraft) (fs : ℚ) (dAlt : Option ℤ) :
    (altitudeUpdate ac fs dAlt).isSome = true ∧
    (∀ alt : ℤ, dAlt = some alt →
      ac.alt_history.filter (fun p => fs - p.1 < 20) = [] →
      ∀ ac', altitudeUpdate ac fs dAlt = some ac' →
        ac'.vrate = ac.vrate ∧ ac'.vrate_time = ac.vrate_time ∧
        ((alt > -1500 ∧ alt < 75000) →
          (ac.last_altitude_time = 0 ∨ (fs > ac.last_altitude_time ∧
            (fs - ac.last_altitude_time > 15 ∨ |ac.altitude.getD 0 - alt| < 4000))) →
          ac'.alt_history = [(fs, alt)])) := by
  constructor
  · rcases dAlt with _ | alt
    · rw [altitudeUpdate]
      rfl
    · rw [altitudeUpdate]
      by_cases hin : alt > -1500 ∧ alt < 75000
      · rw [if_pos hin]
        by_cases hacc : ac.last_altitude_time = 0 ∨ (fs > ac.last_altitude_time ∧
            (fs - ac.last_altitude_time > 15 ∨ |ac.altitude.getD 0 - alt| < 4000))
        · rw [if_pos hacc]
          simp only []
          rcases hfil : ac.alt_history.filter (fun p => fs - p.1 < 20) with _ | ⟨p, l⟩
          · simp only [hfil, List.nil_append, List.head?_cons]
            split <;> rfl
          · simp only [hfil, List.cons_append, List.head?_cons]
            split <;> rfl
        · rw [if_neg hacc]
          rfl
      · rw [if_neg hin]
        rfl
  · intro alt hd hfil ac' hac'
    subst hd
    rw [altitudeUpdate] at hac'
    by_cases hin : alt > -1500 ∧ alt < 75000
    · rw [if_pos hin] at hac'
      by_cases hacc : ac.last_altitude_time = 0 ∨ (fs > ac.last_altitude_time ∧
          (fs - ac.last_altitude_time > 15 ∨ |ac.altitude.getD 0 - alt| < 4000))
      · rw [if_pos hacc] at hac'
        simp only [hfil, List.nil_append, List.head?_cons] at hac'
        rw [sub_self] at hac'
        rw [if_neg (by norm_num : ¬((0:ℚ) > 10))] at hac'
        rw [← Option.some_inj.mp hac']
        exact ⟨rfl, rfl, fun _ _ => rfl⟩
      · rw [if_neg hacc] at hac'
        rw [← Option.some_inj.mp hac']
        exact ⟨rfl, rfl, fun _ h => absurd h hacc⟩
    · rw [if_neg hin] at hac'
      rw [← Option.some_inj.mp hac']
      exact ⟨rfl, rfl, fun h _ => absurd h hin⟩

/-- `applySquawk` only touches the squawk field. -/
theorem applySquawk_lrt (ac : Aircraft) (sq : Option ℕ) :
    (applySquawk ac sq).last_result_time = ac.last_result_time := by
  rcases sq with _ | s <;> rfl

/-- `applySquawk` only touches the squawk field. -/
theorem applySquawk_lrp (ac : Aircraft) (sq : Option ℕ) :
    (applySquawk ac sq).last_result_position = ac.last_result_position := by
  rcases sq with _ | s <;> rfl

/-- `applyCallsign` only touches the callsign field. -/
theorem applyCallsign_lrt (ac : Aircraft) (cs : Option String) :
    (applyCallsign ac cs).last_result_time = ac.last_result_time := by
  rcases cs with _ | c <;> rfl

/-- `applyCallsign` only touches the callsign field. -/
theorem applyCallsign_lrp (ac : Aircraft) (cs : Option String) :
    (applyCallsign ac cs).last_result_position = ac.last_result_position := by
  rcases cs with _ | c <;> rfl

/-- The altitude block does not touch the `last_result_*` fields. -/
theorem altitudeUpdate_result_fields (ac : Aircraft) (fs : ℚ) (dAlt : Option ℤ)
    (ac' : Aircraft) (h : altitudeUpdate ac fs dAlt = some ac') :
    ac'.last_result_time = ac.last_result_time ∧
    ac'.last_result_position = ac.last_result_position := by
  rcases dAlt with _ | alt
  · rw [altitudeUpdate] at h
    rw [← Option.some_inj.mp h]
    exact ⟨rfl, rfl⟩
  · rw [altitudeUpdate] at h
    by_cases hin : alt > -1500 ∧ alt < 75000
    · rw [if_pos hin] at h
      by_cases hacc : ac.last_altitude_time = 0 ∨ (fs > ac.last_altitude_time ∧
          (fs - ac.last_altitude_time > 15 ∨ |ac.altitude.getD 0 - alt| < 4000))
      · rw [if_pos hacc] at h
        simp only [] at h
        rcases hfil : ac.alt_history.filter (fun p => fs - p.1 < 20) with _ | ⟨p, l⟩
        · simp only [hfil, List.nil_append, List.head?_cons] at h
          split at h <;>
            (rw [← Option.some_inj.mp h]; exact ⟨rfl, rfl⟩)
        · simp only [hfil, List.cons_append, List.head?_cons] at h
          split at h <;>
            (rw [← Option.some_inj.mp h]; exact ⟨rfl, rfl⟩)
      · rw [if_neg hacc] at h
        rw [← Option.some_inj.mp h]
        exact ⟨rfl, rfl⟩
    · rw [if_neg hin] at h
      rw [← Option.some_inj.mp h]
      exact ⟨rfl, rfl⟩

/-- On acceptance, `ac.last_result_time` is assigned `cluster_utc`. -/
theorem acceptResult_lrt (env : REnv) (dec : Decoded) (g : Group) (ac : Aircraft)
    (altitude : Option ℚ) (a : Accepted) (lo : LoopOut) :
    (acceptResult env dec g ac altitude a lo).ac.last_result_time = a.clusterUtc := by
  rcases altitude with _ | altQ <;>
    (rw [acceptResult.eq_def]; simp only []; split <;> rfl)

/-- Each path of `resolveSolve` either leaves `last_result_time` untouched
or (on acceptance) sets it to a `cluster_utc` that is at least the
prior-window `last_result_time` snapshot `lrt`. -/
theorem resolveSolve_lrt (env : REnv) (dec : Decoded) (g : Group) (ac5 : Aircraft)
    (lrp : Option Ecef) (lrd : ℤ) (lrt elapsed : ℚ) :
    (resolveSolve env dec g ac5 lrp lrd lrt elapsed).ac.last_result_time =
      ac5.last_result_time ∨
    lrt ≤ (resolveSolve env dec g ac5 lrp lrd lrt elapsed).ac.last_result_time := by
  rw [resolveSolve]
  simp only []
  split
  · exact Or.inl rfl
  · split
    · exact Or.inl rfl
    · split
      · exact Or.inl rfl
      · split
        · exact Or.inl rfl
        · split
          · exact Or.inl rfl
          · split
            · exact Or.inl rfl
            · split
              · exact Or.inl rfl
              · exact Or.inl rfl
              · rename_i a heq2
                rw [acceptResult_lrt]
                exact Or.inr (clusterLoop_accept_utc _ _ a heq2)

/-- With the prior-window snapshot taken from the aircraft itself and a
previous position present, `resolveSolve` never decreases the aircraft's
`last_result_time`. -/
theorem resolveSolve_lrt_mono (env : REnv) (dec : Decoded) (g : Group)
    (ac5 : Aircraft) (elapsed : ℚ) (hpos5 : ac5.last_result_position ≠ none) :
    ac5.last_result_time ≤
      (resolveSolve env dec g ac5 (priorWindow g ac5).1 (priorWindow g ac5).2.1
        (priorWindow g ac5).2.2 elapsed).ac.last_result_time := by
  rcases resolveSolve_lrt env dec g ac5 (priorWindow g ac5).1 (priorWindow g ac5).2.1
      (priorWindow g ac5).2.2 elapsed with hcase | hcase
  · rw [hcase]
  · refine le_trans ?_ hcase
    rw [priorWindow]
    split
    · rename_i hstale
      rcases hstale with hnone | hold
      · exact absurd hnone hpos5
      · simp only []
        linarith
    · exact le_refl _

/-- Core of C4: when the aircraft has a previous result position,
`resolveCore` never decreases `last_result_time`.  Every early return leaves
the field untouched; on acceptance the new value `cluster_utc` satisfies
`cluster_utc ≥ last_result_time_local` (output-rate throttle), which equals
`ac.last_result_time` in the fresh branch and exceeds it in the stale
branch. -/
theorem resolveCore_lrt (env : REnv) (dec : Decoded) (g : Group) (now : ℚ) (ac : Aircraft)
    (hpos : ac.last_result_position ≠ none) :
    ac.last_result_time ≤ (resolveCore env dec g now ac).ac.last_result_time := by
  rw [resolveCore]
  simp only []
  split
  · exact le_refl _
  · split
    · exact le_refl _
    · rename_i ac2 heq
      have hT := (altitudeUpdate_result_fields _ _ _ _ heq).1
      have hP := (altitudeUpdate_result_fields _ _ _ _ heq).2
      have hT5 : ({ applyCallsign (applySquawk ac2 dec.squawk) dec.callsign with
          last_resolve_attempt := now } : Aircraft).last_result_time =
          ac.last_result_time := by
        simp only [applyCallsign_lrt, applySquawk_lrt, hT]
      have hP5 : ({ applyCallsign (applySquawk ac2 dec.squawk) dec.callsign with
          last_resolve_attempt := now } : Aircraft).last_result_position =
          ac.last_result_position := by
        simp only [applyCallsign_lrp, applySquawk_lrp, hP]
      split
      · refine le_of_eq ?_
        simp only [applyCallsign_lrt, applySquawk_lrt, hT]
      · split
        · exact le_of_eq hT5.symm
        · refine le_trans (le_of_eq hT5.symm) ?_
          exact resolveSolve_lrt_mono env dec g _ _ (by rw [hP5]; exact hpos)

/-- C4.  `last_result_time` is monotonic non-decreasing per aircraft across
`_resolve` invocations: for any aircraft with a previous result position
(the field is only ever assigned together with a position, lines 354-357),
the value after a `_resolve` run is at least the value before.  Aircraft
other than the decoded one are untouched, so the bound holds at every
address. -/
theorem c4_last_result_time_monotonic (env : REnv) (st : MState) (g : Group)
    (now : ℚ) (addr : ℕ) (ac ac' : Aircraft)
    (hac : st.aircraft addr = some ac)
    (hpos : ac.last_result_position ≠ none)
    (hac' : (resolveGroup env st g now).state.aircraft addr = some ac') :
    ac.last_result_time ≤ ac'.last_result_time := by
  rw [resolveGroup] at hac'
  rcases hpend : st.pending g.message with _ | g0
  · simp only [hpend, RResult.state] at hac'
    rw [hac] at hac'
    exact le_of_eq (congrArg Aircraft.last_result_time (Option.some_inj.mp hac'))
  · simp only [hpend] at hac'
    split at hac'
    · simp only [RResult.state] at hac'
      rw [hac] at hac'
      exact le_of_eq (congrArg Aircraft.last_result_time (Option.some_inj.mp hac'))
    · split at hac'
      · simp only [RResult.state] at hac'
        rw [hac] at hac'
        exact le_of_eq (congrArg Aircraft.last_result_time (Option.some_inj.mp hac'))
      · rename_i dec hdec
        split at hac'
        · simp only [RResult.state] at hac'
          rw [hac] at hac'
          exact le_of_eq (congrArg Aircraft.last_result_time (Option.some_inj.mp hac'))
        · split at hac'
          · simp only [RResult.state] at hac'
            rw [hac] at hac'
            exact le_of_eq (congrArg Aircraft.last_result_time (Option.some_inj.mp hac'))
          · rename_i ac0 hlook
            split at hac'
            · simp only [RResult.state] at hac'
              by_cases haddr : addr = dec.address
              · rw [if_pos haddr] at hac'
                have hac0 : ac0 = ac := by
                  rw [haddr] at hac
                  exact Option.some_inj.mp (hlook.symm.trans hac)
                rw [← Option.some_inj.mp hac', ← hac0]
                exact resolveCore_lrt env dec g now ac0 (by rw [hac0]; exact hpos)
              · rw [if_neg haddr] at hac'
                rw [hac] at hac'
                exact le_of_eq (congrArg Aircraft.last_result_time (Option.some_inj.mp hac'))
            · simp only [RResult.state] at hac'
              by_cases haddr : addr = dec.address
              · rw [if_pos haddr] at hac'
                have hac0 : ac0 = ac := by
                  rw [haddr] at hac
                  exact Option.some_inj.mp (hlook.symm.trans hac)
                rw [← Option.some_inj.mp hac', ← hac0]
                exact resolveCore_lrt env dec g now ac0 (by rw [hac0]; exact hpos)
              · rw [if_neg haddr] at hac'
                rw [hac] at hac'
                exact le_of_eq (congrArg Aircraft.last_result_time (Option.some_inj.mp hac'))

/-- Witness for C4: a concrete run of `_resolve` (early return at the copy
gate) on an aircraft with a prior position, via the theorem. -/
theorem c4_witness :
    c4Ac.last_result_position ≠ none ∧
    c4Ac.last_result_time ≤ c4Ac.last_result_time := by
  constructor
  · simp [c4Ac]
  · exact c4_last_result_time_monotonic cexEnv c4State cexGroup 0 7 c4Ac c4Ac
      (by norm_num [c4State]) (by simp [c4Ac])
      (by norm_num [resolveGroup, RResult.state, c4State, cexGroup, noEff])

/-- Witness for C10: the altitude block on an aircraft with an empty pruned
history accepts a 5000 ft sample — the head access succeeds, `vrate` and
`vrate_time` are untouched, and the history becomes exactly the new sample. -/
theorem c10_witness :
    (altitudeUpdate wAc 100 (some 5000)).isSome = true ∧
    c10Ac.vrate = wAc.vrate ∧ c10Ac.vrate_time = wAc.vrate_time ∧
    c10Ac.alt_history = [(100, 5000)] := by
  have h := c10_alt_history_head wAc 100 (some 5000)
  have hEq : altitudeUpdate wAc 100 (some 5000) = some c10Ac := by
    norm_num [altitudeUpdate, wAc, c10Ac]
  have h2 := h.2 5000 rfl (by simp [wAc]) c10Ac hEq
  exact ⟨h.1, h2.1, h2.2.1, h2.2.2 (by norm_num) (Or.inl (by norm_num [wAc]))⟩

/-- C9 counterexample.  On a file whose first line is empty and whose second
line is `alice`, `read_blacklist` yields the empty set — the code reads only
`f.readline()`, the *first* line — while the claimed contract ("the first
non-empty line, stripped") yields `{alice}`. -/
theorem c9_counterexample :
    read_blacklist (some "bl") (some ["", "alice"]) = ∅ ∧
    blacklistSpec (some "bl") (some ["", "alice"]) = {"alice"} ∧
    read_blacklist (some "bl") (some ["", "alice"]) ≠
      blacklistSpec (some "bl") (some ["", "alice"]) := by
  have h1 : read_blacklist (some "bl") (some ["", "alice"]) = ∅ := by
    simp [read_blacklist, pyStrip, pyWhitespace]
  have h2 : blacklistSpec (some "bl") (some ["", "alice"]) = {"alice"} := by
    simp [blacklistSpec, pyStrip, pyWhitespace]
  refine ⟨h1, h2, ?_⟩
  rw [h1, h2]
  exact Ne.symm (Finset.singleton_ne_empty _)

/-- C9 (amended).  `read_blacklist` reads exactly one line: the blacklist is
the stripped *first* line when that strip is non-empty, and empty otherwise
(no filename configured, file absent — `FileNotFoundError` is not an error —
or blank first line); the set is rebuilt from scratch on every call (it is a
function of filename and file contents only).  In particular later lines
never matter. -/
theorem c9_blacklist_first_line (fn : String) (file : Option (List String)) :
    (∀ filename fl, read_blacklist filename fl = blacklistAmended filename fl) ∧
    (∀ l rest, read_blacklist (some fn) (some (l :: rest)) =
      read_blacklist (some fn) (some [l])) ∧
    read_blacklist none file = ∅ ∧
    read_blacklist (some fn) none = ∅ := by
  refine ⟨?_, ?_, rfl, rfl⟩
  · intro filename fl
    rcases filename with _ | n
    · rfl
    · rcases fl with _ | lines
      · rfl
      · rw [read_blacklist, blacklistAmended]
  · intro l rest
    simp [read_blacklist]

end Mlat
